import Mathlib

/-!
Shallow embedding of the go-commands dispatcher library (package `command`
plus its gorilla-mux HTTP adapter package `gorillamux`).

Go's in-place mutation of the dispatcher structs is modelled by explicit
state passing: every registration operation returns the new dispatcher
state together with the Go function's error return.  Go `map[string]V`
values are modelled as association lists with Go map-assignment semantics
(`mapInsert` replaces an existing binding in place or appends a new one);
a Go map holds each key at most once, which matches lookup on such lists.
Side effects of a dispatch (logger notifications, invocation of the bound
invoker) are modelled as an explicit event trace returned by `Dispatch`.
Go `panic` in the Must* wrappers is modelled as an error-valued result
carrying the panic payload.
-/

namespace Command

/-- Errors of the `command` package, one constructor per distinct error
construction site in the source (`constError`, `fmt.Errorf` formats;
`%w`-wrapping is modelled by the nested `Err` argument). -/
inductive Err where
  | notFound
  | superCommandNotFound (superCommand : String)
  | commandAlreadyAdded (command : String)
  | superCommandAlreadyAdded (command : String)
  | spaceChars (command : String)
  | nonGraphicChars (command : String)
  | invalidChars (command : String)
  | commandReturnedWrap (command : String) (e : Err)
  | commandWrap (command : String) (e : Err)
  | defaultCommandWrap (e : Err)
  | mustAddSuperCommandWrap (superCommand : String) (e : Err)
  | bindError (id : Nat)
  | handlerError (id : Nat)
deriving DecidableEq

/-- `Default = ""`, the distinguished default-command name. -/
def Default : String := ""

/-- Go stdlib `unicode.IsSpace` (an external collaborator of this package):
true exactly on the White_Space code points — the Latin-1 fast path
(TAB, LF, VT, FF, CR, SP, NEL, NBSP) plus the listed higher code points. -/
def isSpace (c : Char) : Bool :=
  c = Char.ofNat 0x09 || c = Char.ofNat 0x0A || c = Char.ofNat 0x0B ||
  c = Char.ofNat 0x0C || c = Char.ofNat 0x0D || c = ' ' ||
  c = Char.ofNat 0x85 || c = Char.ofNat 0xA0 ||
  c = Char.ofNat 0x1680 || (0x2000 ≤ c.toNat && c.toNat ≤ 0x200A) ||
  c = Char.ofNat 0x2028 || c = Char.ofNat 0x2029 || c = Char.ofNat 0x202F ||
  c = Char.ofNat 0x205F || c = Char.ofNat 0x3000

/-- Go stdlib `unicode.IsGraphic` (an external collaborator): exact on
Latin-1 (categories L, M, N, P, S, Zs: 0x20..0x7E and 0xA0..0xFF minus
the soft hyphen 0xAD); code points above 0xFF are abstracted as graphic,
an approximation of the stdlib Unicode category tables that the claims
never exercise. -/
def isGraphic (c : Char) : Bool :=
  let n := c.toNat
  if n ≤ 0xFF then
    (0x20 ≤ n && n ≤ 0x7E) || (0xA0 ≤ n && n ≤ 0xFF && n ≠ 0xAD)
  else
    true

/-- One of the characters of the `strings.ContainsAny(command, "|&;()<>")`
check. -/
def isShellMeta (c : Char) : Bool :=
  c = '|' || c = '&' || c = ';' || c = '(' || c = ')' || c = '<' || c = '>'

/-- `checkCommandChars`: rejects a command name that contains a space
character, contains no graphic character, or contains one of `|&;()<>`,
in that order of checks. -/
def checkCommandChars (command : String) : Option Err :=
  if command.data.any isSpace then
    some (Err.spaceChars command)
  else if command.data.any isGraphic = false then
    some (Err.nonGraphicChars command)
  else if command.data.any isShellMeta then
    some (Err.invalidChars command)
  else
    none

/-- A `context.Context` value; the dispatcher passes it through untouched,
so only its identity matters. `background` is `context.Background()`. -/
inductive Ctx where
  | background
  | other (id : Nat)
deriving DecidableEq

/-- Observable side effects of a dispatch: a logger notification
(`logger.LogStringArgsCommand(command, args)`, the logger identified by
its id) or the call of a bound invoker (`cmd.stringArgsFunc(ctx, args...)`,
the invoker identified by the id of its `StringArgsFunc`). -/
inductive Event where
  | log (loggerId : Nat) (command : String) (args : List String)
  | invoke (funcId : Nat) (ctx : Ctx) (args : List String)
deriving DecidableEq

/-- A bound invoker (`StringArgsFunc`): `funcId` is its identity, `run`
gives the error it returns for a given context and raw string args
(its own side effects are outside the dispatcher's bookkeeping). -/
structure StringArgsFunc where
  funcId : Nat
  run : Ctx → List String → Option Err

/-- One declared argument (`Arg`), as stored and printed by the
dispatcher; `Typ` stands for the Go field `Type`, a Lean keyword. -/
structure Arg where
  Name : String
  Typ : String
  Description : String
deriving DecidableEq

/-- `Args` as the dispatcher uses it: the ordered argument declarations. -/
abbrev Args : Type := List Arg

/-- A results handler capability, identified abstractly; the dispatcher
only stores these. -/
abbrev ResultsHandler : Type := Nat

/-- The `commandFunc interface{}` value handed to registration, carrying
what the binder `GetStringArgsFunc` will make of it. -/
inductive CommandFunc where
  | bindFail (e : Err)
  | binds (f : StringArgsFunc)

/-- Modelled from the spec: `GetStringArgsFunc` (the argument binder,
spec §4.1) is code of this repository that is not under src/. Per the
spec it is pure validation plus closure construction: it either returns
a binding error identifying the incompatibility or a bound invoker. The
outcome is modelled as determined by the `CommandFunc` value. -/
def GetStringArgsFunc (commandFunc : CommandFunc) (_args : Args)
    (_resultsHandlers : List ResultsHandler) : Except Err StringArgsFunc :=
  match commandFunc with
  | CommandFunc.bindFail e => Except.error e
  | CommandFunc.binds f => Except.ok f

/-- `stringArgsCommand`, the registry entry built by registration. -/
structure StringArgsCommand where
  command : String
  description : String
  args : Args
  commandFunc : CommandFunc
  stringArgsFunc : StringArgsFunc
  resultsHandlers : List ResultsHandler

/-- Go map lookup on the association-list model. -/
def mapLookup {α : Type} (m : List (String × α)) (k : String) : Option α :=
  match m with
  | [] => none
  | (k1, v) :: rest => if k1 = k then some v else mapLookup rest k

/-- Go map assignment `m[k] = v`: replaces the binding of `k` in place if
present, otherwise appends it. -/
def mapInsert {α : Type} (m : List (String × α)) (k : String) (v : α) :
    List (String × α) :=
  match m with
  | [] => [(k, v)]
  | (k1, v1) :: rest =>
      if k1 = k then (k, v) :: rest else (k1, v1) :: mapInsert rest k v

/-- `StringArgsDispatcher`: the command registry (`comm`) and the
registered loggers (by id, in registration order). -/
structure StringArgsDispatcher where
  comm : List (String × StringArgsCommand)
  loggers : List Nat

/-- `NewStringArgsDispatcher`. -/
def NewStringArgsDispatcher (loggers : List Nat) : StringArgsDispatcher :=
  { comm := [], loggers := loggers }

/-- `StringArgsDispatcher.AddCommand`: duplicate check, then name-syntax
check, then binding; only on success is the entry stored. -/
def StringArgsDispatcher.AddCommand (disp : StringArgsDispatcher)
    (command description : String) (commandFunc : CommandFunc) (args : Args)
    (resultsHandlers : List ResultsHandler) :
    StringArgsDispatcher × Option Err :=
  if (mapLookup disp.comm command).isSome then
    (disp, some (Err.commandAlreadyAdded command))
  else
    match checkCommandChars command with
    | some e => (disp, some (Err.commandReturnedWrap command e))
    | none =>
      match GetStringArgsFunc commandFunc args resultsHandlers with
      | Except.error e => (disp, some (Err.commandReturnedWrap command e))
      | Except.ok f =>
          let cmd : StringArgsCommand :=
            { command := command, description := description, args := args,
              commandFunc := commandFunc, stringArgsFunc := f,
              resultsHandlers := resultsHandlers }
          ({ disp with comm := mapInsert disp.comm command cmd }, none)

/-- `StringArgsDispatcher.MustAddCommand`: panics with the error itself
when `AddCommand` fails (`some` in the second component is the panic). -/
def StringArgsDispatcher.MustAddCommand (disp : StringArgsDispatcher)
    (command description : String) (commandFunc : CommandFunc) (args : Args)
    (resultsHandlers : List ResultsHandler) :
    StringArgsDispatcher × Option Err :=
  let r := disp.AddCommand command description commandFunc args resultsHandlers
  match r.2 with
  | some e => (r.1, some e)
  | none => (r.1, none)

/-- `StringArgsDispatcher.AddDefaultCommand`: binds and stores under the
`Default` name; note there is no duplicate check in the source — an
existing default entry is overwritten. -/
def StringArgsDispatcher.AddDefaultCommand (disp : StringArgsDispatcher)
    (description : String) (commandFunc : CommandFunc) (args : Args)
    (resultsHandlers : List ResultsHandler) :
    StringArgsDispatcher × Option Err :=
  match GetStringArgsFunc commandFunc args resultsHandlers with
  | Except.error e => (disp, some (Err.defaultCommandWrap e))
  | Except.ok f =>
      let cmd : StringArgsCommand :=
        { command := Default, description := description, args := args,
          commandFunc := commandFunc, stringArgsFunc := f,
          resultsHandlers := resultsHandlers }
      ({ disp with comm := mapInsert disp.comm Default cmd }, none)

/-- `StringArgsDispatcher.HasCommnd` (name as in the source). -/
def StringArgsDispatcher.HasCommnd (disp : StringArgsDispatcher)
    (command : String) : Bool :=
  (mapLookup disp.comm command).isSome

/-- `StringArgsDispatcher.HasDefaultCommnd` (name as in the source). -/
def StringArgsDispatcher.HasDefaultCommnd (disp : StringArgsDispatcher) :
    Bool :=
  (mapLookup disp.comm Default).isSome

/-- `StringArgsDispatcher.Dispatch`: unknown name returns `ErrNotFound`
with no side effects; otherwise every logger is notified in order and
then the bound invoker runs. The first component is the event trace. -/
def StringArgsDispatcher.Dispatch (disp : StringArgsDispatcher) (ctx : Ctx)
    (command : String) (args : List String) : List Event × Option Err :=
  match mapLookup disp.comm command with
  | none => ([], some Err.notFound)
  | some cmd =>
      (disp.loggers.map (fun l => Event.log l command args) ++
         [Event.invoke cmd.stringArgsFunc.funcId ctx args],
       cmd.stringArgsFunc.run ctx args)

/-- `StringArgsDispatcher.MustDispatch`: panics with
`Command '<name>' returned: <err>` when `Dispatch` fails. -/
def StringArgsDispatcher.MustDispatch (disp : StringArgsDispatcher)
    (ctx : Ctx) (command : String) (args : List String) :
    List Event × Option Err :=
  let r := disp.Dispatch ctx command args
  match r.2 with
  | some e => (r.1, some (Err.commandReturnedWrap command e))
  | none => (r.1, none)

/-- `StringArgsDispatcher.DispatchDefaultCommand`:
`Dispatch(context.Background(), Default)`. -/
def StringArgsDispatcher.DispatchDefaultCommand
    (disp : StringArgsDispatcher) : List Event × Option Err :=
  disp.Dispatch Ctx.background Default []

/-- `SuperStringArgsDispatcher`: a map from super-command name to a
nested `StringArgsDispatcher`, plus the loggers handed to each new
sub-dispatcher. -/
structure SuperStringArgsDispatcher where
  sub : List (String × StringArgsDispatcher)
  loggers : List Nat

/-- `NewSuperStringArgsDispatcher`. -/
def NewSuperStringArgsDispatcher (loggers : List Nat) :
    SuperStringArgsDispatcher :=
  { sub := [], loggers := loggers }

/-- `SuperStringArgsDispatcher.AddSuperCommand`: name-syntax check first
(skipped for the empty name), then duplicate check, then a fresh
sub-dispatcher is stored and returned. -/
def SuperStringArgsDispatcher.AddSuperCommand
    (disp : SuperStringArgsDispatcher) (superCommand : String) :
    SuperStringArgsDispatcher × Except Err StringArgsDispatcher :=
  match (if superCommand ≠ "" then checkCommandChars superCommand
         else none) with
  | some e => (disp, Except.error (Err.commandWrap superCommand e))
  | none =>
      if (mapLookup disp.sub superCommand).isSome then
        (disp, Except.error (Err.superCommandAlreadyAdded superCommand))
      else
        let subDisp := NewStringArgsDispatcher disp.loggers
        ({ disp with sub := mapInsert disp.sub superCommand subDisp },
         Except.ok subDisp)

/-- `SuperStringArgsDispatcher.MustAddSuperCommand`: panics with
`MustAddSuperCommand(<name>): <err>` when `AddSuperCommand` fails. -/
def SuperStringArgsDispatcher.MustAddSuperCommand
    (disp : SuperStringArgsDispatcher) (superCommand : String) :
    SuperStringArgsDispatcher × Except Err StringArgsDispatcher :=
  let r := disp.AddSuperCommand superCommand
  match r.2 with
  | Except.error e =>
      (r.1, Except.error (Err.mustAddSuperCommandWrap superCommand e))
  | Except.ok subDisp => (r.1, Except.ok subDisp)

/-- `SuperStringArgsDispatcher.HasCommnd` (name as in the source). -/
def SuperStringArgsDispatcher.HasCommnd (disp : SuperStringArgsDispatcher)
    (superCommand : String) : Bool :=
  match mapLookup disp.sub superCommand with
  | none => false
  | some sub => sub.HasDefaultCommnd

/-- `SuperStringArgsDispatcher.HasSubCommnd` (name as in the source). -/
def SuperStringArgsDispatcher.HasSubCommnd
    (disp : SuperStringArgsDispatcher) (superCommand command : String) :
    Bool :=
  match mapLookup disp.sub superCommand with
  | none => false
  | some sub => sub.HasCommnd command

/-- `SuperStringArgsDispatcher.Dispatch`: unknown super-command name
returns `SuperCommandNotFound` with no side effects; otherwise the
sub-dispatcher dispatches. -/
def SuperStringArgsDispatcher.Dispatch (disp : SuperStringArgsDispatcher)
    (ctx : Ctx) (superCommand command : String) (args : List String) :
    List Event × Option Err :=
  match mapLookup disp.sub superCommand with
  | none => ([], some (Err.superCommandNotFound superCommand))
  | some sub => sub.Dispatch ctx command args

/-- `SuperStringArgsDispatcher.MustDispatch`: panics with
`Command '<name>': <err>` when `Dispatch` fails. -/
def SuperStringArgsDispatcher.MustDispatch
    (disp : SuperStringArgsDispatcher) (ctx : Ctx)
    (superCommand command : String) (args : List String) :
    List Event × Option Err :=
  let r := disp.Dispatch ctx superCommand command args
  match r.2 with
  | some e => (r.1, some (Err.commandWrap command e))
  | none => (r.1, none)

/-- `SuperStringArgsDispatcher.DispatchDefaultCommand`:
`Dispatch(context.Background(), Default, Default)`. -/
def SuperStringArgsDispatcher.DispatchDefaultCommand
    (disp : SuperStringArgsDispatcher) : List Event × Option Err :=
  disp.Dispatch Ctx.background Default Default []

/-- `SuperStringArgsDispatcher.DispatchCombinedCommandAndArgs`: splits a
combined token list into super-command, command and args (an existing
super command with a default command swallows all remaining tokens as
args), then dispatches. Returns the chosen (superCommand, command) pair
with the dispatch result. -/
def SuperStringArgsDispatcher.DispatchCombinedCommandAndArgs
    (disp : SuperStringArgsDispatcher) (ctx : Ctx)
    (commandAndArgs : List String) :
    (String × String) × (List Event × Option Err) :=
  match commandAndArgs with
  | [] => ((Default, Default), disp.Dispatch ctx Default Default [])
  | [sc] => ((sc, Default), disp.Dispatch ctx sc Default [])
  | sc :: c2 :: rest =>
      match mapLookup disp.sub sc with
      | some sub =>
          if sub.HasDefaultCommnd then
            ((sc, Default), disp.Dispatch ctx sc Default (c2 :: rest))
          else
            ((sc, c2), disp.Dispatch ctx sc c2 rest)
      | none => ((sc, c2), disp.Dispatch ctx sc c2 rest)

/-- A command name is bad in the sense of the spec's naming constraint:
it contains a whitespace character or one of `|&;()<>`. -/
def badCommandName (c : String) : Bool :=
  c.data.any (fun ch => isSpace ch || isShellMeta ch)

/-- Test fixture: a bound invoker that always succeeds. -/
def saf0 : StringArgsFunc :=
  { funcId := 0, run := fun _ _ => none }

/-- Test fixture: a bound invoker that always fails. -/
def safFail : StringArgsFunc :=
  { funcId := 1, run := fun _ _ => some (Err.handlerError 7) }

/-- Test fixture: a registry entry named `boom` whose invoker fails. -/
def cmdFail : StringArgsCommand :=
  { command := "boom", description := "fails", args := [],
    commandFunc := CommandFunc.binds safFail, stringArgsFunc := safFail,
    resultsHandlers := [] }

/-- Test fixture: a registry entry for the default command. -/
def cmdDef : StringArgsCommand :=
  { command := Default, description := "default", args := [],
    commandFunc := CommandFunc.binds saf0, stringArgsFunc := saf0,
    resultsHandlers := [] }

/-- Test fixture: a dispatcher with two loggers and the failing `boom`
command. -/
def dispFail : StringArgsDispatcher :=
  { comm := [("boom", cmdFail)], loggers := [1, 2] }

/-- Test fixture: a sub-dispatcher holding only a default command. -/
def subWithDefault : StringArgsDispatcher :=
  { comm := [(Default, cmdDef)], loggers := [] }

/-- Test fixture: a super dispatcher whose super command `a` has a
default command and whose super command `b` has none. -/
def superFix : SuperStringArgsDispatcher :=
  { sub := [("a", subWithDefault), ("b", dispFail)], loggers := [] }

end Command

namespace Gorillamux

open Command

/-- One iteration of the query-parameter merging loop of
`CommandHandlerWithQueryParams`: when the key has at least one value and
its first value is non-empty (`len(q[k]) > 0 && len(q[k][0]) > 0`), the
values joined with `;` are assigned to `vars` under that key. -/
def queryStep (vs : List (String × String)) (kv : String × List String) :
    List (String × String) :=
  match kv.2 with
  | [] => vs
  | v0 :: _ =>
      if v0.length > 0 then
        mapInsert vs kv.1 (String.intercalate ";" kv.2)
      else vs

/-- The query-parameter merging loop of `CommandHandlerWithQueryParams`.
The Go `url.Values` map is modelled as an association list of
(key, values) with unique keys; map iteration becomes a fold. -/
def commandHandlerWithQueryParamsVars (vars : List (String × String))
    (query : List (String × List String)) : List (String × String) :=
  query.foldl queryStep vars

/-- Outcome of one request served by `CommandHandlerRequestBodyArg`:
the body converter failed, the converted argument name collided with a
path variable (error reported, command never invoked), or the command
function was invoked with the final variable mapping. -/
inductive BodyHandlerOutcome where
  | converterError (e : Err)
  | argAlreadySetError (name : String)
  | invoked (vars : List (String × String))

/-- `CommandHandlerRequestBodyArg`, per request: the router's path
variables and the body converter's result determine whether the command
function is invoked and with which argument mapping. The bound command
function itself is abstract; the outcome records whether and how it is
called. -/
def CommandHandlerRequestBodyArg (vars : List (String × String))
    (bodyResult : Except Err (String × String)) : BodyHandlerOutcome :=
  match bodyResult with
  | Except.error e => BodyHandlerOutcome.converterError e
  | Except.ok (name, value) =>
      if (mapLookup vars name).isSome then
        BodyHandlerOutcome.argAlreadySetError name
      else
        BodyHandlerOutcome.invoked (mapInsert vars name value)

end Gorillamux

namespace Command

theorem mapLookup_mapInsert_self {α : Type} (m : List (String × α))
    (k : String) (v : α) : mapLookup (mapInsert m k v) k = some v := by
  induction m with
  | nil => simp [mapInsert, mapLookup]
  | cons p rest ih =>
      obtain ⟨k1, v1⟩ := p
      by_cases h : k1 = k <;> simp [mapInsert, mapLookup, h, ih]

theorem mapLookup_mapInsert_ne {α : Type} (m : List (String × α))
    (k k2 : String) (v : α) (h : k ≠ k2) :
    mapLookup (mapInsert m k v) k2 = mapLookup m k2 := by
  induction m with
  | nil => simp [mapInsert, mapLookup, h]
  | cons p rest ih =>
      obtain ⟨k1, v1⟩ := p
      by_cases h1 : k1 = k
      · subst h1
        simp [mapInsert, mapLookup, h]
      · simp [mapInsert, mapLookup, h1, ih]

/-- C3: for every registry state and name not present in it, `Dispatch`
returns `ErrNotFound` with an empty event trace (no logger notification,
no invoker call); likewise the super dispatcher with an unregistered
super-command name returns `SuperCommandNotFound` with an empty trace. -/
theorem dispatch_unregistered_not_found :
    (∀ (disp : StringArgsDispatcher) (ctx : Ctx) (command : String)
       (args : List String), mapLookup disp.comm command = none →
         disp.Dispatch ctx command args = ([], some Err.notFound)) ∧
    (∀ (disp : SuperStringArgsDispatcher) (ctx : Ctx)
       (superCommand command : String) (args : List String),
       mapLookup disp.sub superCommand = none →
         disp.Dispatch ctx superCommand command args =
           ([], some (Err.superCommandNotFound superCommand))) := by
  constructor
  · intro disp ctx command args h
    simp [StringArgsDispatcher.Dispatch, h]
  · intro disp ctx superCommand command args h
    simp [SuperStringArgsDispatcher.Dispatch, h]

theorem dispatch_unregistered_not_found_witness :
    (NewStringArgsDispatcher [3]).Dispatch Ctx.background "nope" ["x"] =
      ([], some Err.notFound) ∧
    (NewSuperStringArgsDispatcher []).Dispatch Ctx.background "s" "c" [] =
      ([], some (Err.superCommandNotFound "s")) :=
  ⟨dispatch_unregistered_not_found.1 _ _ _ _ rfl,
   dispatch_unregistered_not_found.2 _ _ _ _ _ rfl⟩

/-- C4: for every dispatch of a registered command, the event trace is
exactly one `log` event per registered logger, in registration order,
followed by the single `invoke` event of the bound invoker — so every
logger is notified exactly once before the invoker runs, and the trace
does not depend on whether the invocation result is an error. -/
theorem dispatch_notifies_loggers_before_invoker
    (disp : StringArgsDispatcher) (ctx : Ctx) (command : String)
    (args : List String) (cmd : StringArgsCommand)
    (h : mapLookup disp.comm command = some cmd) :
    disp.Dispatch ctx command args =
      (disp.loggers.map (fun l => Event.log l command args) ++
         [Event.invoke cmd.stringArgsFunc.funcId ctx args],
       cmd.stringArgsFunc.run ctx args) := by
  simp [StringArgsDispatcher.Dispatch, h]

theorem dispatch_notifies_loggers_before_invoker_witness :
    dispFail.Dispatch Ctx.background "boom" ["a"] =
      ([Event.log 1 "boom" ["a"], Event.log 2 "boom" ["a"],
        Event.invoke 1 Ctx.background ["a"]],
       some (Err.handlerError 7)) := by
  have h := dispatch_notifies_loggers_before_invoker dispFail Ctx.background
    "boom" ["a"] cmdFail rfl
  simpa [dispFail, cmdFail, safFail] using h

/-- C5: `DispatchDefaultCommand` is exactly `Dispatch` at context
`Background` with the empty-string command name and no arguments, for
both dispatchers. -/
theorem dispatch_default_eq_dispatch_empty_name :
    (∀ disp : StringArgsDispatcher,
       disp.DispatchDefaultCommand = disp.Dispatch Ctx.background "" []) ∧
    (∀ disp : SuperStringArgsDispatcher,
       disp.DispatchDefaultCommand =
         disp.Dispatch Ctx.background "" "" []) :=
  ⟨fun _ => rfl, fun _ => rfl⟩

/-- C6: `checkCommandChars` accepts a string iff it contains no
whitespace character, contains at least one graphic character, and
contains none of `|&;()<>`. -/
theorem checkCommandChars_accepts_iff (command : String) :
    checkCommandChars command = none ↔
      (∀ c ∈ command.data, isSpace c = false) ∧
      (∃ c ∈ command.data, isGraphic c = true) ∧
      (∀ c ∈ command.data, isShellMeta c = false) := by
  simp only [checkCommandChars]
  split_ifs with h1 h2 h3
  · constructor
    · intro h
      exact h.elim
    · rintro ⟨hall, -, -⟩
      rw [List.any_eq_true] at h1
      obtain ⟨c, hc, hs⟩ := h1
      rw [hall c hc] at hs
      cases hs
  · constructor
    · intro h
      exact h.elim
    · rintro ⟨-, ⟨c, hc, hg⟩, -⟩
      rw [List.any_eq_false] at h2
      exact absurd hg (h2 c hc)
  · constructor
    · intro h
      exact h.elim
    · rintro ⟨-, -, hall⟩
      rw [List.any_eq_true] at h3
      obtain ⟨c, hc, hm⟩ := h3
      rw [hall c hc] at hm
      cases hm
  · refine iff_of_true rfl ⟨?_, ?_, ?_⟩
    · intro c hc
      have hfalse : command.data.any isSpace = false := by
        cases hb : command.data.any isSpace with
        | false => rfl
        | true => exact absurd hb h1
      have := List.any_eq_false.mp hfalse c hc
      simpa using this
    · have hg : command.data.any isGraphic = true := by
        cases hb : command.data.any isGraphic with
        | false => exact absurd hb h2
        | true => rfl
      obtain ⟨c, hc, hcg⟩ := List.any_eq_true.mp hg
      exact ⟨c, hc, hcg⟩
    · intro c hc
      have hfalse : command.data.any isShellMeta = false := by
        cases hb : command.data.any isShellMeta with
        | false => rfl
        | true => exact absurd hb h3
      have := List.any_eq_false.mp hfalse c hc
      simpa using this

end Command

namespace Command

theorem isGraphic_of_shellMeta (c : Char) (h : isShellMeta c = true) :
    isGraphic c = true := by
  unfold isShellMeta at h
  simp only [Bool.or_eq_true, decide_eq_true_eq] at h
  rcases h with ((((((h | h) | h) | h) | h) | h) | h) <;> subst h <;> decide

theorem checkCommandChars_some_of_bad (c : String)
    (h : badCommandName c = true) :
    checkCommandChars c = some (Err.spaceChars c) ∨
    checkCommandChars c = some (Err.invalidChars c) := by
  unfold badCommandName at h
  rw [List.any_eq_true] at h
  obtain ⟨ch, hch, hor⟩ := h
  simp only [Bool.or_eq_true] at hor
  unfold checkCommandChars
  by_cases hs : c.data.any isSpace = true
  · left
    simp [hs]
  · right
    have hsf : c.data.any isSpace = false := by
      cases hb : c.data.any isSpace with
      | false => rfl
      | true => exact absurd hb hs
    have hmeta : isShellMeta ch = true := by
      rcases hor with h | h
      · exact absurd h (List.any_eq_false.mp hsf ch hch)
      · exact h
    have hg : c.data.any isGraphic = true :=
      List.any_eq_true.mpr ⟨ch, hch, isGraphic_of_shellMeta ch hmeta⟩
    have hm : c.data.any isShellMeta = true :=
      List.any_eq_true.mpr ⟨ch, hch, hmeta⟩
    simp [hsf, hg, hm]

/-- C2: registering a command name that contains a whitespace character
or one of `|&;()<>` fails with the (wrapped) naming error produced by
`checkCommandChars`, and the dispatcher state is returned exactly
unchanged — for `AddCommand` (when the name is not already registered)
and for `AddSuperCommand` (any such name is non-empty, so the check
runs). -/
theorem bad_name_registration_rejected :
    (∀ (disp : StringArgsDispatcher) (c d : String) (f : CommandFunc)
       (a : Args) (rh : List ResultsHandler),
       badCommandName c = true → mapLookup disp.comm c = none →
       ∃ e, checkCommandChars c = some e ∧
         disp.AddCommand c d f a rh =
           (disp, some (Err.commandReturnedWrap c e))) ∧
    (∀ (disp : SuperStringArgsDispatcher) (sc : String),
       badCommandName sc = true →
       ∃ e, checkCommandChars sc = some e ∧
         disp.AddSuperCommand sc =
           (disp, Except.error (Err.commandWrap sc e))) := by
  constructor
  · intro disp c d f a rh hbad hnone
    rcases checkCommandChars_some_of_bad c hbad with hch | hch
    · exact ⟨_, hch, by
        simp [StringArgsDispatcher.AddCommand, hnone, hch]⟩
    · exact ⟨_, hch, by
        simp [StringArgsDispatcher.AddCommand, hnone, hch]⟩
  · intro disp sc hbad
    have hne : sc ≠ "" := by
      intro he
      subst he
      exact absurd hbad (by decide)
    rcases checkCommandChars_some_of_bad sc hbad with hch | hch
    · exact ⟨_, hch, by
        simp [SuperStringArgsDispatcher.AddSuperCommand, hne, hch]⟩
    · exact ⟨_, hch, by
        simp [SuperStringArgsDispatcher.AddSuperCommand, hne, hch]⟩

theorem bad_name_registration_rejected_witness :
    (NewStringArgsDispatcher []).AddCommand "a b" "d"
        (CommandFunc.binds saf0) [] [] =
      (NewStringArgsDispatcher [],
       some (Err.commandReturnedWrap "a b" (Err.spaceChars "a b"))) ∧
    (NewSuperStringArgsDispatcher []).AddSuperCommand "x|y" =
      (NewSuperStringArgsDispatcher [],
       Except.error (Err.commandWrap "x|y" (Err.invalidChars "x|y"))) := by
  constructor
  · obtain ⟨e, he, heq⟩ := bad_name_registration_rejected.1
      (NewStringArgsDispatcher []) "a b" "d" (CommandFunc.binds saf0) [] []
      (by decide) rfl
    have he2 : checkCommandChars "a b" = some (Err.spaceChars "a b") := by
      decide
    rw [he2] at he
    rw [← Option.some.inj he] at heq
    exact heq
  · obtain ⟨e, he, heq⟩ := bad_name_registration_rejected.2
      (NewSuperStringArgsDispatcher []) "x|y" (by decide)
    have he2 : checkCommandChars "x|y" = some (Err.invalidChars "x|y") := by
      decide
    rw [he2] at he
    rw [← Option.some.inj he] at heq
    exact heq

/-- C7: each Must-variant panics exactly when the plain variant returns
an error (the panic payload wrapping the error as in the source), and
otherwise returns the plain variant's non-error results and leaves the
same state. -/
theorem must_variants_panic_iff :
    (∀ (disp : StringArgsDispatcher) (c d : String) (f : CommandFunc)
       (a : Args) (rh : List ResultsHandler),
       (disp.MustAddCommand c d f a rh).1 = (disp.AddCommand c d f a rh).1 ∧
       (disp.MustAddCommand c d f a rh).2 =
         (disp.AddCommand c d f a rh).2) ∧
    (∀ (disp : StringArgsDispatcher) (ctx : Ctx) (c : String)
       (args : List String),
       (disp.MustDispatch ctx c args).1 = (disp.Dispatch ctx c args).1 ∧
       ((disp.MustDispatch ctx c args).2.isSome ↔
          (disp.Dispatch ctx c args).2.isSome) ∧
       (∀ e, (disp.Dispatch ctx c args).2 = some e →
          (disp.MustDispatch ctx c args).2 =
            some (Err.commandReturnedWrap c e))) ∧
    (∀ (disp : SuperStringArgsDispatcher) (sc : String),
       (disp.MustAddSuperCommand sc).1 = (disp.AddSuperCommand sc).1 ∧
       (∀ sub, (disp.AddSuperCommand sc).2 = Except.ok sub →
          (disp.MustAddSuperCommand sc).2 = Except.ok sub) ∧
       (∀ e, (disp.AddSuperCommand sc).2 = Except.error e →
          (disp.MustAddSuperCommand sc).2 =
            Except.error (Err.mustAddSuperCommandWrap sc e))) := by
  refine ⟨?_, ?_, ?_⟩
  · intro disp c d f a rh
    cases h : (disp.AddCommand c d f a rh).2 with
    | none => simp [StringArgsDispatcher.MustAddCommand, h]
    | some e => simp [StringArgsDispatcher.MustAddCommand, h]
  · intro disp ctx c args
    cases h : (disp.Dispatch ctx c args).2 with
    | none => simp [StringArgsDispatcher.MustDispatch, h]
    | some e =>
        refine ⟨by simp [StringArgsDispatcher.MustDispatch, h],
                by simp [StringArgsDispatcher.MustDispatch, h], ?_⟩
        intro e2 he2
        have he : e = e2 := Option.some.inj he2
        subst he
        simp [StringArgsDispatcher.MustDispatch, h]
  · intro disp sc
    cases h : (disp.AddSuperCommand sc).2 with
    | error e =>
        refine ⟨by simp [SuperStringArgsDispatcher.MustAddSuperCommand, h],
                ?_, ?_⟩
        · intro sub hsub
          cases hsub
        · intro e2 he2
          have he : e = e2 := Except.error.inj he2
          subst he
          simp [SuperStringArgsDispatcher.MustAddSuperCommand, h]
    | ok sub =>
        refine ⟨by simp [SuperStringArgsDispatcher.MustAddSuperCommand, h],
                ?_, ?_⟩
        · intro sub2 hsub2
          have hs : sub = sub2 := Except.ok.inj hsub2
          subst hs
          simp [SuperStringArgsDispatcher.MustAddSuperCommand, h]
        · intro e2 he2
          cases he2

theorem must_variants_panic_iff_witness :
    ((NewSuperStringArgsDispatcher []).MustAddSuperCommand "a b").2 =
      Except.error (Err.mustAddSuperCommandWrap "a b"
        (Err.commandWrap "a b" (Err.spaceChars "a b"))) := by
  apply (must_variants_panic_iff.2.2 (NewSuperStringArgsDispatcher [])
    "a b").2.2
  rfl

end Command

namespace Command

/-- C1 counterexample: registering the default command twice does not
fail on the second attempt — `AddDefaultCommand` has no duplicate check,
so the second call returns no error and replaces the entry stored by the
first registration (its description becomes "second"). -/
theorem add_default_twice_counterexample :
    (((NewStringArgsDispatcher []).AddDefaultCommand "first"
        (CommandFunc.binds saf0) [] []).1.AddDefaultCommand "second"
        (CommandFunc.binds saf0) [] []).2 = none ∧
    (mapLookup (((NewStringArgsDispatcher []).AddDefaultCommand "first"
        (CommandFunc.binds saf0) [] []).1.AddDefaultCommand "second"
        (CommandFunc.binds saf0) [] []).1.comm Default).map
      (fun c => c.description) = some "second" :=
  ⟨rfl, rfl⟩

/-- C1 (amended): `AddCommand` and `AddSuperCommand` fail on a name that
is already registered and leave the registry exactly unchanged, but
`AddDefaultCommand` performs no duplicate check: whenever binding
succeeds it returns no error and stores the new entry under `Default`,
overwriting any existing default registration. -/
theorem duplicate_registration_behavior :
    (∀ (disp : StringArgsDispatcher) (c d : String) (f : CommandFunc)
       (a : Args) (rh : List ResultsHandler),
       (mapLookup disp.comm c).isSome = true →
       disp.AddCommand c d f a rh =
         (disp, some (Err.commandAlreadyAdded c))) ∧
    (∀ (disp : SuperStringArgsDispatcher) (sc : String),
       (mapLookup disp.sub sc).isSome = true →
       (disp.AddSuperCommand sc).1 = disp ∧
       ∃ e, (disp.AddSuperCommand sc).2 = Except.error e) ∧
    (∀ (disp : StringArgsDispatcher) (d : String) (g : StringArgsFunc)
       (a : Args) (rh : List ResultsHandler),
       (disp.AddDefaultCommand d (CommandFunc.binds g) a rh).2 = none ∧
       mapLookup (disp.AddDefaultCommand d
           (CommandFunc.binds g) a rh).1.comm Default =
         some { command := Default, description := d, args := a,
                commandFunc := CommandFunc.binds g, stringArgsFunc := g,
                resultsHandlers := rh }) := by
  refine ⟨?_, ?_, ?_⟩
  · intro disp c d f a rh h
    simp [StringArgsDispatcher.AddCommand, h]
  · intro disp sc h
    cases hm : (if sc ≠ "" then checkCommandChars sc else none) with
    | some e =>
        constructor
        · simp [SuperStringArgsDispatcher.AddSuperCommand, hm]
        · exact ⟨Err.commandWrap sc e,
            by simp [SuperStringArgsDispatcher.AddSuperCommand, hm]⟩
    | none =>
        constructor
        · simp [SuperStringArgsDispatcher.AddSuperCommand, hm, h]
        · exact ⟨Err.superCommandAlreadyAdded sc,
            by simp [SuperStringArgsDispatcher.AddSuperCommand, hm, h]⟩
  · intro disp d g a rh
    constructor
    · simp [StringArgsDispatcher.AddDefaultCommand, GetStringArgsFunc]
    · simp [StringArgsDispatcher.AddDefaultCommand, GetStringArgsFunc,
        mapLookup_mapInsert_self]

theorem duplicate_registration_behavior_witness :
    dispFail.AddCommand "boom" "d" (CommandFunc.binds saf0) [] [] =
      (dispFail, some (Err.commandAlreadyAdded "boom")) :=
  duplicate_registration_behavior.1 dispFail "boom" "d"
    (CommandFunc.binds saf0) [] [] rfl

/-- C9: splitting in `DispatchCombinedCommandAndArgs` — an empty token
list dispatches (Default, Default) with no args; a one-element list
dispatches (first element, Default) with no args; with two or more
elements, if the first element names a registered super command whose
sub-dispatcher has a default command then all remaining elements become
args of that default command, otherwise the second element is the
sub-command name and the elements after it the args. -/
theorem dispatch_combined_split (disp : SuperStringArgsDispatcher)
    (ctx : Ctx) :
    (disp.DispatchCombinedCommandAndArgs ctx [] =
       ((Default, Default), disp.Dispatch ctx Default Default [])) ∧
    (∀ sc, disp.DispatchCombinedCommandAndArgs ctx [sc] =
       ((sc, Default), disp.Dispatch ctx sc Default [])) ∧
    (∀ sc c2 rest, (∃ sub, mapLookup disp.sub sc = some sub ∧
         sub.HasDefaultCommnd = true) →
       disp.DispatchCombinedCommandAndArgs ctx (sc :: c2 :: rest) =
         ((sc, Default), disp.Dispatch ctx sc Default (c2 :: rest))) ∧
    (∀ sc c2 rest, (∀ sub, mapLookup disp.sub sc = some sub →
         sub.HasDefaultCommnd = false) →
       disp.DispatchCombinedCommandAndArgs ctx (sc :: c2 :: rest) =
         ((sc, c2), disp.Dispatch ctx sc c2 rest)) := by
  refine ⟨rfl, fun sc => rfl, ?_, ?_⟩
  · rintro sc c2 rest ⟨sub, hsub, hdef⟩
    simp [SuperStringArgsDispatcher.DispatchCombinedCommandAndArgs,
      hsub, hdef]
  · intro sc c2 rest hno
    cases hm : mapLookup disp.sub sc with
    | none =>
        simp [SuperStringArgsDispatcher.DispatchCombinedCommandAndArgs, hm]
    | some sub =>
        have hd := hno sub hm
        simp [SuperStringArgsDispatcher.DispatchCombinedCommandAndArgs,
          hm, hd]

theorem dispatch_combined_split_witness :
    superFix.DispatchCombinedCommandAndArgs Ctx.background
        ["a", "x", "y"] =
      (("a", Default),
       superFix.Dispatch Ctx.background "a" Default ["x", "y"]) :=
  (dispatch_combined_split superFix Ctx.background).2.2.1 "a" "x" ["y"]
    ⟨subWithDefault, rfl, rfl⟩

end Command

namespace Gorillamux

open Command

theorem queryStep_lookup_ne (vs : List (String × String))
    (kv : String × List String) (k : String) (h : kv.1 ≠ k) :
    mapLookup (queryStep vs kv) k = mapLookup vs k := by
  rcases kv with ⟨k1, vals⟩
  cases vals with
  | nil => rfl
  | cons v0 vrest =>
      by_cases hl : v0.length > 0
      · simp only [queryStep, hl, if_true]
        exact mapLookup_mapInsert_ne _ _ _ _ h
      · simp [queryStep, hl]

theorem merge_lookup_of_notMem (vars : List (String × String))
    (query : List (String × List String)) (k : String)
    (h : ∀ kv ∈ query, kv.1 ≠ k) :
    mapLookup (commandHandlerWithQueryParamsVars vars query) k =
      mapLookup vars k := by
  induction query generalizing vars with
  | nil => rfl
  | cons q rest ih =>
      rw [show commandHandlerWithQueryParamsVars vars (q :: rest) =
            commandHandlerWithQueryParamsVars (queryStep vars q) rest
          from rfl,
        ih _ (fun kv hm => h kv (List.mem_cons_of_mem _ hm)),
        queryStep_lookup_ne _ _ _ (h q (List.mem_cons_self _ _))]

/-- C8 counterexample: with path variable `k = "path"` and query string
`?k=` (the key `k` present with the single empty value), the handler's
guard `len(q[k][0]) > 0` fails, so the path variable survives: the
stored value is "path", not the joined query value "" that the claim
demands for every present key. -/
theorem query_params_counterexample :
    mapLookup (commandHandlerWithQueryParamsVars [("k", "path")]
        [("k", [""])]) "k" = some "path" ∧
    String.intercalate ";" [""] = "" ∧
    some "path" ≠ some ("" : String) :=
  ⟨rfl, rfl, by decide⟩

/-- C8 (amended): for every query key with at least one value whose
first value is non-empty, all its values joined with ";" are stored
under that key in the argument mapping, overriding any path variable of
the same name; a key whose value list is empty or whose first value is
empty is skipped. -/
theorem query_params_join_override (vars : List (String × String))
    (query : List (String × List String)) (k v0 : String)
    (vs : List String) (hnd : (query.map Prod.fst).Nodup)
    (hmem : (k, v0 :: vs) ∈ query) (hv0 : v0.length > 0) :
    mapLookup (commandHandlerWithQueryParamsVars vars query) k =
      some (String.intercalate ";" (v0 :: vs)) := by
  induction query generalizing vars with
  | nil => cases hmem
  | cons q rest ih =>
      rw [show commandHandlerWithQueryParamsVars vars (q :: rest) =
            commandHandlerWithQueryParamsVars (queryStep vars q) rest
          from rfl]
      rcases List.mem_cons.mp hmem with heq | hmem2
      · have hnotmem : k ∉ List.map Prod.fst rest := by
          have h1 := (List.nodup_cons.mp hnd).1
          rw [← heq] at h1
          exact h1
        have hk_not : ∀ kv ∈ rest, kv.1 ≠ k := by
          intro kv hm hkk
          apply hnotmem
          rw [← hkk]
          exact List.mem_map_of_mem Prod.fst hm
        rw [merge_lookup_of_notMem _ _ _ hk_not, ← heq]
        simp [queryStep, hv0, Command.mapLookup_mapInsert_self]
      · exact ih (queryStep vars q) (List.nodup_cons.mp hnd).2 hmem2

theorem query_params_join_override_witness :
    mapLookup (commandHandlerWithQueryParamsVars [("k", "path")]
        [("k", ["a", "b"])]) "k" = some "a;b" := by
  have h := query_params_join_override [("k", "path")]
    [("k", ["a", "b"])] "k" "a" ["b"] (by simp) (by simp) (by decide)
  simpa using h

/-- C10: in `CommandHandlerRequestBodyArg`, when the argument name
produced by the body converter is already present in the router's
path-variable mapping, the handler reports the collision error and does
not invoke the command function. -/
theorem request_body_arg_collision_rejected
    (vars : List (String × String)) (name value : String)
    (h : (mapLookup vars name).isSome = true) :
    CommandHandlerRequestBodyArg vars (Except.ok (name, value)) =
      BodyHandlerOutcome.argAlreadySetError name := by
  simp [CommandHandlerRequestBodyArg, h]

theorem request_body_arg_collision_rejected_witness :
    CommandHandlerRequestBodyArg [("id", "42")] (Except.ok ("id", "7")) =
      BodyHandlerOutcome.argAlreadySetError "id" :=
  request_body_arg_collision_rejected [("id", "42")] "id" "7" rfl

end Gorillamux
